import Mathlib

/-!
Verification of the yawr WAV codec against its specification.

The development shallowly embeds the library's data model and operations:
byte streams are `List Nat` (each element a byte value `< 256`), machine
integers are `Nat` with explicit `% 256 ^ w` wrapping at the points where
the Rust code performs fixed-width arithmetic, fallible operations return
`Except`/`Option`, and a `panic` (failed `assert!`, division by zero) is an
explicit constructor of the result type.  Sample values of every element
type (unsigned/signed integers and IEEE floats) are represented by their
little-endian bit patterns, which is exactly the representation the code
itself manipulates: `NumIO` only moves bytes via `to_le_bytes`/
`from_le_bytes` and performs no arithmetic on the values.
-/

namespace Yawr

/-- Little-endian byte serialization of the low `w` bytes of `x`
(`to_le_bytes` on a `w`-byte machine integer). -/
def toLEBytes : Nat → Nat → List Nat
  | 0, _ => []
  | w + 1, x => x % 256 :: toLEBytes w (x / 256)

/-- Little-endian byte deserialization (`from_le_bytes`). -/
def fromLEBytes : List Nat → Nat
  | [] => 0
  | b :: bs => b + 256 * fromLEBytes bs

theorem length_toLEBytes (w x : Nat) : (toLEBytes w x).length = w := by
  induction w generalizing x with
  | zero => rfl
  | succ w ih => simp [toLEBytes, ih]

theorem fromLEBytes_toLEBytes (w x : Nat) :
    fromLEBytes (toLEBytes w x) = x % 256 ^ w := by
  induction w generalizing x with
  | zero => simp [toLEBytes, fromLEBytes, Nat.mod_one]
  | succ w ih =>
    have hpow : (256 : Nat) ^ (w + 1) = 256 * 256 ^ w := by ring
    have hA : x % (256 * 256 ^ w) % 256 = x % 256 :=
      Nat.mod_mod_of_dvd x ⟨256 ^ w, rfl⟩
    have hB : x % (256 * 256 ^ w) / 256 = x / 256 % 256 ^ w :=
      Nat.mod_mul_right_div_self x 256 (256 ^ w)
    have hC := Nat.div_add_mod (x % (256 * 256 ^ w)) 256
    simp only [toLEBytes, fromLEBytes, ih, hpow]
    omega

theorem fromLEBytes_toLEBytes_of_lt {w x : Nat} (hx : x < 256 ^ w) :
    fromLEBytes (toLEBytes w x) = x := by
  rw [fromLEBytes_toLEBytes, Nat.mod_eq_of_lt hx]

theorem toLEBytes_fromLEBytes (bs : List Nat) (hb : ∀ b ∈ bs, b < 256) :
    toLEBytes bs.length (fromLEBytes bs) = bs := by
  induction bs with
  | nil => rfl
  | cons b bs ih =>
    have hbb : b < 256 := hb b (List.mem_cons_self b bs)
    have h1 : (b + 256 * fromLEBytes bs) % 256 = b := by
      rw [Nat.add_mul_mod_self_left, Nat.mod_eq_of_lt hbb]
    have h2 : (b + 256 * fromLEBytes bs) / 256 = fromLEBytes bs := by
      rw [Nat.add_mul_div_left _ _ (by norm_num : (0:Nat) < 256),
        Nat.div_eq_of_lt hbb, Nat.zero_add]
    simp only [List.length_cons, fromLEBytes, toLEBytes, h1, h2]
    simp [ih (fun b hbm => hb b (List.mem_cons_of_mem _ hbm))]

theorem toLEBytes_lt (w x : Nat) : ∀ b ∈ toLEBytes w x, b < 256 := by
  induction w generalizing x with
  | zero => simp [toLEBytes]
  | succ w ih =>
    intro b hbm
    simp only [toLEBytes, List.mem_cons] at hbm
    rcases hbm with h | h
    · subst h; exact Nat.mod_lt _ (by norm_num)
    · exact ih (x / 256) b h

/-- Decode-side errors (`ReadError` of the source); each tag-mismatch
constructor carries the four observed bytes (the source stores them after a
lenient UTF-8 text decode, which we keep as the raw bytes). `IOError`
stands for the wrapped underlying I/O failure, which on a pure byte stream
can only be a short read. -/
inductive ReadError where
  | ExpectedRIFF (found : List Nat)
  | ExpectedWAVE (found : List Nat)
  | ExpectedFmt (found : List Nat)
  | ExpectedData (found : List Nat)
  | IOError
deriving DecidableEq, Repr

/-- `Read::read_exact` on a pure byte stream: take `n` bytes off the front,
failing on a short read. -/
def readExact (n : Nat) (s : List Nat) : Except ReadError (List Nat × List Nat) :=
  if n ≤ s.length then .ok (s.take n, s.drop n) else .error .IOError

/-- `read_u32::<LittleEndian>`. -/
def readU32 (s : List Nat) : Except ReadError (Nat × List Nat) := do
  let (bs, rest) ← readExact 4 s
  return (fromLEBytes bs, rest)

/-- `read_u16::<LittleEndian>`. -/
def readU16 (s : List Nat) : Except ReadError (Nat × List Nat) := do
  let (bs, rest) ← readExact 2 s
  return (fromLEBytes bs, rest)

/-- `NumIO::read` for an element type of byte width `W` (the `impl_numio`
macro): read exactly `W` bytes and reinterpret them little-endian; the
value is the element's bit pattern. Fails (`ErrorKind::UnexpectedEof` from
`read_exact`) on a short read. -/
def NumIo.read (W : Nat) (s : List Nat) : Except ReadError (Nat × List Nat) := do
  let (bs, rest) ← readExact W s
  return (fromLEBytes bs, rest)

/-- `NumIO::write`: emit exactly `W` little-endian bytes of the element's
bit pattern. -/
def NumIo.write (W : Nat) (x : Nat) : List Nat := toLEBytes W x

theorem ok_bind {α β ε : Type} (a : α) (f : α → Except ε β) :
    (Except.ok a : Except ε α) >>= f = f a := rfl

theorem error_bind {α β ε : Type} (e : ε) (f : α → Except ε β) :
    (Except.error e : Except ε α) >>= f = .error e := rfl

theorem readExact_append (b s : List Nat) (n : Nat) (hb : b.length = n) :
    readExact n (b ++ s) = .ok (b, s) := by
  subst hb
  simp [readExact, List.take_left, List.drop_left]

theorem NumIo.read_append (W : Nat) (b s : List Nat) (hb : b.length = W) :
    NumIo.read W (b ++ s) = .ok (fromLEBytes b, s) := by
  simp [NumIo.read, readExact_append b s W hb, ok_bind]

theorem NumIo.read_short (W : Nat) (s : List Nat) (hs : s.length < W) :
    NumIo.read W s = .error .IOError := by
  simp only [NumIo.read, readExact, if_neg (by omega : ¬ W ≤ s.length)]
  rfl

/-- The claim C7 statement needs the codec's exact-width read on its own
output. -/
theorem NumIo.read_write (W x : Nat) (rest : List Nat) (hx : x < 256 ^ W) :
    NumIo.read W (NumIo.write W x ++ rest) = .ok (x, rest) := by
  rw [NumIo.write, NumIo.read_append W _ _ (length_toLEBytes W x),
    fromLEBytes_toLEBytes_of_lt hx]

/-- C7 — Sample codec: for every supported element type (byte width `W`,
values being `W`-byte bit patterns), `NumIO::write` emits exactly `W`
little-endian bytes, `NumIO::read` reads exactly `W` bytes and returns the
encoded value back bit-for-bit (no validation: every bit pattern is a valid
value), and a stream shorter than `W` bytes makes `read` fail. -/
theorem C7_numio_codec (W x : Nat) (rest : List Nat) (hx : x < 256 ^ W) :
    (NumIo.write W x).length = W ∧
    NumIo.read W (NumIo.write W x ++ rest) = .ok (x, rest) ∧
    (∀ s : List Nat, s.length < W → NumIo.read W s = .error .IOError) := by
  refine ⟨length_toLEBytes W x, NumIo.read_write W x rest hx, ?_⟩
  intro s hs
  exact NumIo.read_short W s hs

/-- Witness for C7 at the 16-bit element width and bit pattern 300. -/
theorem C7_numio_codec_witness :
    (NumIo.write 2 300).length = 2 ∧
    NumIo.read 2 (NumIo.write 2 300 ++ [9]) = .ok (300, [9]) ∧
    (∀ s : List Nat, s.length < 2 → NumIo.read 2 s = .error .IOError) :=
  C7_numio_codec 2 300 [9] (by norm_num)

/-- `<WavSampleIterator as Iterator>::next`: `T::read(&mut self.file.data).ok()`
— one decode step whose error, whatever it is, is converted to `None`. -/
def WavSampleIterator.next (W : Nat) (s : List Nat) : Option (Nat × List Nat) :=
  (NumIo.read W s).toOption

/-- C8 — Streaming decoder `next()`: it returns `None` exactly when the
underlying per-sample decode fails (the `.ok()` conversion), and on a pure
byte stream that happens exactly when fewer than `W` bytes remain — so a
clean end of stream (`s = []`) and malformed trailing data
(`0 < s.length < W`) are not distinguished. -/
theorem C8_next_end_of_sequence (W : Nat) (s : List Nat) :
    (WavSampleIterator.next W s = none ↔
      ∃ e, NumIo.read W s = .error e) ∧
    (WavSampleIterator.next W s = none ↔ s.length < W) := by
  constructor
  · constructor
    · intro hn
      cases hr : NumIo.read W s with
      | ok v => rw [WavSampleIterator.next, hr] at hn; cases hn
      | error e => exact ⟨e, rfl⟩
    · rintro ⟨e, he⟩
      rw [WavSampleIterator.next, he]
      rfl
  · rw [WavSampleIterator.next, NumIo.read]
    by_cases hl : W ≤ s.length
    · simp only [readExact, if_pos hl, ok_bind]
      constructor
      · intro hn; cases hn
      · omega
    · simp only [readExact, if_neg hl, error_bind]
      constructor
      · intro _; omega
      · intro _; rfl

/-- The four magic tags, as byte lists. `"RIFF"`. -/
def RIFF : List Nat := [82, 73, 70, 70]

/-- `"WAVE"`. -/
def WAVE : List Nat := [87, 65, 86, 69]

/-- `"fmt "`. -/
def FMT : List Nat := [102, 109, 116, 32]

/-- `"data"`. -/
def DATA : List Nat := [100, 97, 116, 97]

/-- The `expect_magic!` macro of the source: read a `u32`, turn it back
into its four little-endian bytes, compare those bytes exactly with the
expected tag, and on mismatch fail with the given tag-specific error
carrying the observed bytes. -/
def expect_magic (tag : List Nat) (err : List Nat → ReadError)
    (s : List Nat) : Except ReadError (List Nat) := do
  let (u, rest) ← readU32 s
  let val := toLEBytes 4 u
  if val = tag then return rest else throw (err val)

/-- `AudioFormat` (`src/lowlevel/mod.rs`). -/
inductive AudioFormat where
  | PCMLinear
  | PCMFloat
  | Unknown (code : Nat)
deriving DecidableEq, Repr

/-- `AudioFormat::from_u16`. -/
def AudioFormat.from_u16 (d : Nat) : AudioFormat :=
  if d = 1 then .PCMLinear else if d = 3 then .PCMFloat else .Unknown d

/-- The `u16` code `AudioFormat::write` emits. -/
def AudioFormat.toCode : AudioFormat → Nat
  | .PCMLinear => 1
  | .PCMFloat => 3
  | .Unknown x => x

/-- `WavHeader` (`src/lowlevel/mod.rs`); the `u32`/`u16` fields are `Nat`s. -/
structure WavHeader where
  file_size : Nat
  audio_format : AudioFormat
  channels : Nat
  sample_rate : Nat
  bytes_per_sec : Nat
  bytes_per_block : Nat
  bits_per_sample : Nat
  data_size : Nat
deriving DecidableEq, Repr

/-- `WavHeader::from_reader`: the fixed parse sequence — `"RIFF"`,
file size, `"WAVE"`, `"fmt "`, the discarded sub-chunk size, format code,
channels, sample rate, bytes/sec, block size, bits/sample, `"data"`,
data size. -/
def WavHeader.from_reader (s : List Nat) :
    Except ReadError (WavHeader × List Nat) := do
  let s ← expect_magic RIFF ReadError.ExpectedRIFF s
  let (file_size, s) ← readU32 s
  let s ← expect_magic WAVE ReadError.ExpectedWAVE s
  let s ← expect_magic FMT ReadError.ExpectedFmt s
  let (_, s) ← readU32 s
  let (fmtCode, s) ← readU16 s
  let audio_format := AudioFormat.from_u16 fmtCode
  let (channels, s) ← readU16 s
  let (sample_rate, s) ← readU32 s
  let (bytes_per_sec, s) ← readU32 s
  let (bytes_per_block, s) ← readU16 s
  let (bits_per_sample, s) ← readU16 s
  let s ← expect_magic DATA ReadError.ExpectedData s
  let (data_size, s) ← readU32 s
  return ({ file_size, audio_format, channels, sample_rate, bytes_per_sec,
            bytes_per_block, bits_per_sample, data_size }, s)

/-- `WavHeader::write`: serializes the header fields in order and, as its
doc comment says, does not write `data_size`; the last bytes emitted are
the `"data"` tag. 40 bytes in total. -/
def WavHeader.write (h : WavHeader) : List Nat :=
  RIFF ++ toLEBytes 4 h.file_size ++ WAVE ++ FMT ++ toLEBytes 4 16 ++
  toLEBytes 2 h.audio_format.toCode ++ toLEBytes 2 h.channels ++
  toLEBytes 4 h.sample_rate ++ toLEBytes 4 h.bytes_per_sec ++
  toLEBytes 2 h.bytes_per_block ++ toLEBytes 2 h.bits_per_sample ++ DATA

/-- `WavFile::len` of `src/lowlevel/mod.rs`, verbatim:
`(data_size * 8 / data_size) as usize`. (The Rust `u32` overflow and
division-by-zero panics do not arise at the inputs considered.) -/
def WavFile.len (h : WavHeader) : Nat := h.data_size * 8 / h.data_size

/-- `WavFile::len` of `src/lib.rs`, verbatim:
`(data_size * 8 / block_size) as usize`, where `block_size` is the stored
`fmt ` sub-chunk size. -/
def lenLib (data_size block_size : Nat) : Nat := data_size * 8 / block_size

/-- The element types of the decode dispatch table (default build: the
feature-gated 24/48-bit extension variants are absent). -/
inductive SampleFormat where
  | U8
  | I16
  | I32
  | I64
  | F32
  | F64
deriving DecidableEq, Repr

/-- Element byte width of each dispatch variant. -/
def SampleFormat.width : SampleFormat → Nat
  | .U8 => 1
  | .I16 => 2
  | .I32 => 4
  | .I64 => 8
  | .F32 => 4
  | .F64 => 8

/-- The `AudioFormat` each dispatch variant pairs with. -/
def SampleFormat.fmtKind : SampleFormat → AudioFormat
  | .U8 | .I16 | .I32 | .I64 => .PCMLinear
  | .F32 | .F64 => .PCMFloat

/-- Result of `WavFile::samples`: `panic` models the Rust division-by-zero
panic of `bytes_per_block / channels` when `channels == 0`; `err` is the
`Err(())` unsupported-format return. -/
inductive DispatchResult where
  | panic
  | err
  | ok (f : SampleFormat)
deriving DecidableEq, Repr

/-- `WavFile::samples`: match on `(bytes_per_block / channels, audio_format)`
against the fixed table. -/
def WavFile.samples (h : WavHeader) : DispatchResult :=
  if h.channels = 0 then .panic
  else
    match h.bytes_per_block / h.channels, h.audio_format with
    | 1, .PCMLinear => .ok .U8
    | 2, .PCMLinear => .ok .I16
    | 4, .PCMLinear => .ok .I32
    | 4, .PCMFloat => .ok .F32
    | 8, .PCMLinear => .ok .I64
    | 8, .PCMFloat => .ok .F64
    | _, _ => .err

/-- Repeatedly apply `WavSampleIterator::next` until it yields `None`,
collecting the decoded elements (fuel-indexed helper). -/
def decodeAllFuel (W : Nat) : Nat → List Nat → List Nat
  | 0, _ => []
  | f + 1, s =>
    match WavSampleIterator.next W s with
    | none => []
    | some (x, rest) => x :: decodeAllFuel W f rest

/-- All elements the streaming decoder produces before exhaustion. -/
def decodeAll (W : Nat) (s : List Nat) : List Nat :=
  decodeAllFuel W (s.length + 1) s

theorem pure_eq_ok {α ε : Type} (a : α) : (pure a : Except ε α) = .ok a := rfl

theorem throw_eq_error {α ε : Type} (e : ε) : (throw e : Except ε α) = .error e := rfl

theorem expect_magic_append (tag t : List Nat) (ht : t.length = 4)
    (hb : ∀ b ∈ t, b < 256) (err : List Nat → ReadError) (s : List Nat) :
    expect_magic tag err (t ++ s) =
      if t = tag then .ok s else .error (err t) := by
  have h4 : toLEBytes 4 (fromLEBytes t) = t := by
    conv_lhs => rw [← ht]
    exact toLEBytes_fromLEBytes t hb
  simp only [expect_magic, readU32, readExact_append t s 4 ht, pure_eq_ok,
    ok_bind, h4]
  split_ifs with he <;> rfl

theorem readU32_toLE (x : Nat) (s : List Nat) :
    readU32 (toLEBytes 4 x ++ s) = .ok (x % 256 ^ 4, s) := by
  simp [readU32, readExact_append _ s 4 (length_toLEBytes 4 x), ok_bind,
    fromLEBytes_toLEBytes]

theorem readU16_toLE (x : Nat) (s : List Nat) :
    readU16 (toLEBytes 2 x ++ s) = .ok (x % 256 ^ 2, s) := by
  simp [readU16, readExact_append _ s 2 (length_toLEBytes 2 x), ok_bind,
    fromLEBytes_toLEBytes]

/-- A byte stream laid out like the canonical serialized header, with the
four tag positions and every numeric field as parameters, followed by the
payload `rest`. -/
def headerBytes (t1 t2 t3 t4 : List Nat)
    (fs ss fc ch sr bsec bpb bps ds : Nat) (rest : List Nat) : List Nat :=
  t1 ++ (toLEBytes 4 fs ++ (t2 ++ (t3 ++ (toLEBytes 4 ss ++ (toLEBytes 2 fc ++
  (toLEBytes 2 ch ++ (toLEBytes 4 sr ++ (toLEBytes 4 bsec ++ (toLEBytes 2 bpb ++
  (toLEBytes 2 bps ++ (t4 ++ (toLEBytes 4 ds ++ rest))))))))))))

theorem expect_magic_self (tag : List Nat) (ht : tag.length = 4)
    (hb : ∀ b ∈ tag, b < 256) (err : List Nat → ReadError) (s : List Nat) :
    expect_magic tag err (tag ++ s) = .ok s := by
  rw [expect_magic_append tag tag ht hb err s, if_pos rfl]

theorem bind_expect_magic_self {β : Type} (tag : List Nat) (ht : tag.length = 4)
    (hb : ∀ b ∈ tag, b < 256) (err : List Nat → ReadError) (s : List Nat)
    (f : List Nat → Except ReadError β) :
    (expect_magic tag err (tag ++ s)) >>= f = f s := by
  rw [expect_magic_self tag ht hb err s, ok_bind]

theorem bind_readU32_toLE {β : Type} (x : Nat) (s : List Nat)
    (f : Nat × List Nat → Except ReadError β) :
    (readU32 (toLEBytes 4 x ++ s)) >>= f = f (x % 256 ^ 4, s) := by
  rw [readU32_toLE, ok_bind]

theorem bind_readU16_toLE {β : Type} (x : Nat) (s : List Nat)
    (f : Nat × List Nat → Except ReadError β) :
    (readU16 (toLEBytes 2 x ++ s)) >>= f = f (x % 256 ^ 2, s) := by
  rw [readU16_toLE, ok_bind]

theorem from_reader_headerBytes (fs ss fc ch sr bsec bpb bps ds : Nat)
    (rest : List Nat) :
    WavHeader.from_reader
        (headerBytes RIFF WAVE FMT DATA fs ss fc ch sr bsec bpb bps ds rest) =
      .ok ({ file_size := fs % 256 ^ 4,
             audio_format := AudioFormat.from_u16 (fc % 256 ^ 2),
             channels := ch % 256 ^ 2,
             sample_rate := sr % 256 ^ 4,
             bytes_per_sec := bsec % 256 ^ 4,
             bytes_per_block := bpb % 256 ^ 2,
             bits_per_sample := bps % 256 ^ 2,
             data_size := ds % 256 ^ 4 }, rest) := by
  unfold headerBytes WavHeader.from_reader
  rw [bind_expect_magic_self RIFF rfl (by decide)]
  rw [bind_readU32_toLE]
  dsimp only
  rw [bind_expect_magic_self WAVE rfl (by decide)]
  rw [bind_expect_magic_self FMT rfl (by decide)]
  rw [bind_readU32_toLE]
  dsimp only
  rw [bind_readU16_toLE]
  dsimp only
  rw [bind_readU16_toLE]
  dsimp only
  rw [bind_readU32_toLE]
  dsimp only
  rw [bind_readU32_toLE]
  dsimp only
  rw [bind_readU16_toLE]
  dsimp only
  rw [bind_readU16_toLE]
  dsimp only
  rw [bind_expect_magic_self DATA rfl (by decide)]
  rw [bind_readU32_toLE]
  rfl

theorem bind_expect_magic_ne {β : Type} (tag t : List Nat) (ht : t.length = 4)
    (hb : ∀ b ∈ t, b < 256) (hne : t ≠ tag) (err : List Nat → ReadError)
    (s : List Nat) (f : List Nat → Except ReadError β) :
    (expect_magic tag err (t ++ s)) >>= f = .error (err t) := by
  rw [expect_magic_append tag t ht hb err s, if_neg hne, error_bind]

/-- C5 — Magic-tag validation: on a stream laid out like a serialized
header in which exactly one of the four tag positions holds a four-byte
value `t` different from its expected tag (all other fields arbitrary and
the stream long enough), `WavHeader::from_reader` fails with precisely the
tag-specific error for that position, carrying the observed four bytes
(the source formats them leniently as text; the model keeps the raw
bytes), and with no other error; and with all four tags exactly equal to
their expected values the parse succeeds — tag comparison is exact 4-byte
equality. -/
theorem C5_magic_tag_errors (t : List Nat) (ht : t.length = 4)
    (hb : ∀ b ∈ t, b < 256) (fs ss fc ch sr bsec bpb bps ds : Nat)
    (rest : List Nat) :
    (t ≠ RIFF →
      WavHeader.from_reader
          (headerBytes t WAVE FMT DATA fs ss fc ch sr bsec bpb bps ds rest) =
        .error (.ExpectedRIFF t)) ∧
    (t ≠ WAVE →
      WavHeader.from_reader
          (headerBytes RIFF t FMT DATA fs ss fc ch sr bsec bpb bps ds rest) =
        .error (.ExpectedWAVE t)) ∧
    (t ≠ FMT →
      WavHeader.from_reader
          (headerBytes RIFF WAVE t DATA fs ss fc ch sr bsec bpb bps ds rest) =
        .error (.ExpectedFmt t)) ∧
    (t ≠ DATA →
      WavHeader.from_reader
          (headerBytes RIFF WAVE FMT t fs ss fc ch sr bsec bpb bps ds rest) =
        .error (.ExpectedData t)) ∧
    (∃ h : WavHeader,
      WavHeader.from_reader
          (headerBytes RIFF WAVE FMT DATA fs ss fc ch sr bsec bpb bps ds rest) =
        .ok (h, rest)) := by
  refine ⟨fun hne => ?_, fun hne => ?_, fun hne => ?_, fun hne => ?_,
    ⟨_, from_reader_headerBytes fs ss fc ch sr bsec bpb bps ds rest⟩⟩
  · unfold headerBytes WavHeader.from_reader
    rw [bind_expect_magic_ne RIFF t ht hb hne]
  · unfold headerBytes WavHeader.from_reader
    rw [bind_expect_magic_self RIFF rfl (by decide)]
    rw [bind_readU32_toLE]
    dsimp only
    rw [bind_expect_magic_ne WAVE t ht hb hne]
  · unfold headerBytes WavHeader.from_reader
    rw [bind_expect_magic_self RIFF rfl (by decide)]
    rw [bind_readU32_toLE]
    dsimp only
    rw [bind_expect_magic_self WAVE rfl (by decide)]
    rw [bind_expect_magic_ne FMT t ht hb hne]
  · unfold headerBytes WavHeader.from_reader
    rw [bind_expect_magic_self RIFF rfl (by decide)]
    rw [bind_readU32_toLE]
    dsimp only
    rw [bind_expect_magic_self WAVE rfl (by decide)]
    rw [bind_expect_magic_self FMT rfl (by decide)]
    rw [bind_readU32_toLE]
    dsimp only
    rw [bind_readU16_toLE]
    dsimp only
    rw [bind_readU16_toLE]
    dsimp only
    rw [bind_readU32_toLE]
    dsimp only
    rw [bind_readU32_toLE]
    dsimp only
    rw [bind_readU16_toLE]
    dsimp only
    rw [bind_readU16_toLE]
    dsimp only
    rw [bind_expect_magic_ne DATA t ht hb hne]

/-- Witness for C5: the corrupted tag `"RIFX"` in an otherwise zeroed
header makes the parse fail with `ExpectedRIFF` carrying those bytes. -/
theorem C5_magic_tag_errors_witness :
    WavHeader.from_reader
        (headerBytes [82, 73, 70, 88] WAVE FMT DATA 0 16 1 1 44100 88200 2 16 0 []) =
      .error (.ExpectedRIFF [82, 73, 70, 88]) :=
  (C5_magic_tag_errors [82, 73, 70, 88] rfl (by decide)
    0 16 1 1 44100 88200 2 16 0 []).1 (by decide)

/-- C10 — `channels == 0` is accepted by header parsing and makes
`WavFile::samples` panic: for every stream laid out as a well-formed
header whose channel-count field is zero, `WavHeader::from_reader`
succeeds (no error), the parsed header has `channels = 0`, and dispatch
hits the `bytes_per_block / channels` division by zero (`panic`), not the
unsupported-format error. -/
theorem C10_zero_channels_panic (fs ss fc sr bsec bpb bps ds : Nat)
    (rest : List Nat) :
    ∃ h : WavHeader,
      WavHeader.from_reader
          (headerBytes RIFF WAVE FMT DATA fs ss fc 0 sr bsec bpb bps ds rest) =
        .ok (h, rest) ∧
      h.channels = 0 ∧ WavFile.samples h = .panic := by
  refine ⟨_, from_reader_headerBytes fs ss fc 0 sr bsec bpb bps ds rest, ?_, ?_⟩
  · exact Nat.zero_mod _
  · rw [WavFile.samples, if_pos (Nat.zero_mod _)]

/-- C4 — Dispatch table: for every parsed header with a nonzero channel
count (so that `element_width = bytes_per_block / channels` is defined),
`WavFile::samples` returns the typed variant `f` exactly when the pair
`(element_width, audio_format)` is `f`'s documented table entry —
`(1,PCMLinear)→u8`, `(2,PCMLinear)→i16`, `(4,PCMLinear)→i32`,
`(4,PCMFloat)→f32`, `(8,PCMLinear)→i64`, `(8,PCMFloat)→f64` — and returns
the unsupported-format error exactly when the pair is in no table entry
(in particular for every `Unknown` format and every unlisted width; the
feature-gated 24/48-bit extension arms are absent from the default
build). -/
theorem C4_dispatch_table (h : WavHeader) (hc : h.channels ≠ 0) :
    (∀ f : SampleFormat,
      WavFile.samples h = .ok f ↔
        h.bytes_per_block / h.channels = f.width ∧
        h.audio_format = f.fmtKind) ∧
    (WavFile.samples h = .err ↔
      ∀ f : SampleFormat,
        ¬(h.bytes_per_block / h.channels = f.width ∧
          h.audio_format = f.fmtKind)) ∧
    WavFile.samples h ≠ .panic := by
  unfold WavFile.samples
  rw [if_neg hc]
  split
  next heqw heqa =>
    refine ⟨fun f => ?_, ?_, by simp⟩
    · cases f <;> simp [heqw, heqa, SampleFormat.width, SampleFormat.fmtKind]
    · refine ⟨fun hco => (by cases hco), fun hall => ?_⟩
      exact ((hall .U8) ⟨heqw, heqa⟩).elim
  next heqw heqa =>
    refine ⟨fun f => ?_, ?_, by simp⟩
    · cases f <;> simp [heqw, heqa, SampleFormat.width, SampleFormat.fmtKind]
    · refine ⟨fun hco => (by cases hco), fun hall => ?_⟩
      exact ((hall .I16) ⟨heqw, heqa⟩).elim
  next heqw heqa =>
    refine ⟨fun f => ?_, ?_, by simp⟩
    · cases f <;> simp [heqw, heqa, SampleFormat.width, SampleFormat.fmtKind]
    · refine ⟨fun hco => (by cases hco), fun hall => ?_⟩
      exact ((hall .I32) ⟨heqw, heqa⟩).elim
  next heqw heqa =>
    refine ⟨fun f => ?_, ?_, by simp⟩
    · cases f <;> simp [heqw, heqa, SampleFormat.width, SampleFormat.fmtKind]
    · refine ⟨fun hco => (by cases hco), fun hall => ?_⟩
      exact ((hall .F32) ⟨heqw, heqa⟩).elim
  next heqw heqa =>
    refine ⟨fun f => ?_, ?_, by simp⟩
    · cases f <;> simp [heqw, heqa, SampleFormat.width, SampleFormat.fmtKind]
    · refine ⟨fun hco => (by cases hco), fun hall => ?_⟩
      exact ((hall .I64) ⟨heqw, heqa⟩).elim
  next heqw heqa =>
    refine ⟨fun f => ?_, ?_, by simp⟩
    · cases f <;> simp [heqw, heqa, SampleFormat.width, SampleFormat.fmtKind]
    · refine ⟨fun hco => (by cases hco), fun hall => ?_⟩
      exact ((hall .F64) ⟨heqw, heqa⟩).elim
  next a b heq1 heq2 heq3 heq4 heq5 heq6 =>
    have hall : ∀ f : SampleFormat,
        ¬(h.bytes_per_block / h.channels = f.width ∧
          h.audio_format = f.fmtKind) := by
      rintro f ⟨hw, ha⟩
      cases f
      exacts [heq1 hw ha, heq2 hw ha, heq3 hw ha, heq5 hw ha,
        heq4 hw ha, heq6 hw ha]
    refine ⟨fun f => ?_, ?_, by simp⟩
    · exact ⟨fun hco => (by cases hco), fun hp => absurd hp (hall f)⟩
    · exact ⟨fun _ => hall, fun _ => rfl⟩

/-- The header of the repository's `single_sample_u16.wav` test fixture:
mono, 44100 Hz, 16-bit linear PCM, one sample (`data_size = 2`), as the
in-repo tests assert. -/
def fixtureHeader : WavHeader :=
  { file_size := 38
    audio_format := .PCMLinear
    channels := 1
    sample_rate := 44100
    bytes_per_sec := 88200
    bytes_per_block := 2
    bits_per_sample := 16
    data_size := 2 }

/-- Witness for C4 at the fixture header: width 2 with `PCMLinear`
dispatches to the 16-bit signed variant and nothing else. -/
theorem C4_dispatch_table_witness :
    (∀ f : SampleFormat,
      WavFile.samples fixtureHeader = .ok f ↔
        fixtureHeader.bytes_per_block / fixtureHeader.channels = f.width ∧
        fixtureHeader.audio_format = f.fmtKind) ∧
    (WavFile.samples fixtureHeader = .err ↔
      ∀ f : SampleFormat,
        ¬(fixtureHeader.bytes_per_block / fixtureHeader.channels = f.width ∧
          fixtureHeader.audio_format = f.fmtKind)) ∧
    WavFile.samples fixtureHeader ≠ .panic :=
  C4_dispatch_table fixtureHeader (by decide)

/-- C3 — the decode-side declared length is broken in the code: on the
fixture header (`data_size = 2`, `bytes_per_block = 2`) the lowlevel
`WavFile::len` computes `data_size * 8 / data_size = 8`, while the value
the claim (and the repository's own `test_iterator_size`, which asserts
`len() == 1`) requires is `data_size / bytes_per_block = 1`, which is also
the number of successful `next()` calls on the fixture's two payload
bytes.  The `src/lib.rs` variant `data_size * 8 / block_size` agrees with
the fixture only by accident (`block_size = 16`, width 2) and diverges on
an 8-bit fixture (`data_size = 1`: it reports 0 where one sample is
producible). -/
theorem C3_len_code_bug :
    WavFile.len fixtureHeader = 8 ∧
    fixtureHeader.data_size / fixtureHeader.bytes_per_block = 1 ∧
    (decodeAll 2 [0, 0]).length = 1 ∧
    lenLib 2 16 = 1 ∧
    lenLib 1 16 = 0 ∧
    (decodeAll 1 [0]).length = 1 := by
  decide

/-- Overwrite the bytes of `bs` starting at position `pos` with `d`,
zero-filling any gap and extending the list as needed (random-access file
write semantics). -/
def overwriteAt (bs : List Nat) (pos : Nat) (d : List Nat) : List Nat :=
  bs.take pos ++ List.replicate (pos - bs.length) 0 ++ d ++
    bs.drop (pos + d.length)

/-- A random-access byte sink (`Seek + Write`): current contents and the
write position. -/
structure Sink where
  bytes : List Nat
  pos : Nat
deriving DecidableEq, Repr

/-- A sequential write at the current position. -/
def Sink.writeBytes (s : Sink) (d : List Nat) : Sink :=
  { bytes := overwriteAt s.bytes s.pos d, pos := s.pos + d.length }

/-- `seek(SeekFrom::Start(p))`. -/
def Sink.seekStart (s : Sink) (p : Nat) : Sink := { s with pos := p }

/-- `seek(SeekFrom::End(0))`. -/
def Sink.seekEnd (s : Sink) : Sink := { s with pos := s.bytes.length }

/-- `WavWriter` (`src/lowlevel/writer.rs`): the bound header, the sink, and
the running `data_size : u32` counter. The element type `T` is carried as
the byte width `W` at each operation. -/
structure WavWriter where
  header : WavHeader
  sink : Sink
  data_size : Nat
deriving DecidableEq, Repr

/-- `WavWriter::from_file`: `assert_eq!(bits_per_sample, 8 * size_of::<T>())`
then write the provisional header into the sink (and, as in the source,
nothing else: no `data_size` placeholder is emitted). `none` models the
assertion panic — the function has no recoverable error channel (its Rust
return type is `Self`, not `Result`). -/
def WavWriter.from_file (W : Nat) (h : WavHeader) (sink : Sink) :
    Option WavWriter :=
  if h.bits_per_sample = 8 * W then
    some { header := h, sink := sink.writeBytes h.write, data_size := 0 }
  else none

/-- `WavWriter::write_sample`: encode the element and increment the
`data_size` counter by one (the `u32` addition of the source, which counts
samples, not bytes). -/
def WavWriter.write_sample (W : Nat) (w : WavWriter) (x : Nat) : WavWriter :=
  { w with sink := w.sink.writeBytes (NumIo.write W x),
           data_size := (w.data_size + 1) % 256 ^ 4 }

/-- `WavWriter::write_iter`: repeated `write_sample`. -/
def WavWriter.write_iter (W : Nat) (w : WavWriter) (xs : List Nat) : WavWriter :=
  xs.foldl (WavWriter.write_sample W) w

/-- `WavWriter::patch_file`: seek to byte 4 and write `data_size + 40`
(`u32`), seek to byte 40 and write `data_size`, seek back to the end. -/
def WavWriter.patch_file (w : WavWriter) : WavWriter :=
  let s := w.sink.seekStart 4
  let s := s.writeBytes (toLEBytes 4 ((w.data_size + 40) % 256 ^ 4))
  let s := s.seekStart 40
  let s := s.writeBytes (toLEBytes 4 w.data_size)
  let s := s.seekEnd
  { w with sink := s }

/-- The `u32` stored little-endian at byte offset `off` of a byte list. -/
def u32At (bs : List Nat) (off : Nat) : Nat :=
  fromLEBytes ((bs.drop off).take 4)

/-- Modelled from the spec: the `WavFileDesc<T> → WavHeader` conversion
used by `WavFile::write` (the `Into` impl and `WavFileDesc` itself are not
among the repository's files). §4.5 Opening: `bytes_per_block =
channels × sizeof(T)`, `bits_per_sample = 8 × sizeof(T)`, `audio_format`
derived from `T`'s category, `file_size` estimated from the declared
length, `data_size = 0`. -/
def WavFileDesc.toHeader (W : Nat) (fmt : AudioFormat)
    (channels sample_rate length : Nat) : WavHeader :=
  { file_size := length * W + 36
    audio_format := fmt
    channels := channels
    sample_rate := sample_rate
    bytes_per_sec := sample_rate * channels * W
    bytes_per_block := channels * W
    bits_per_sample := 8 * W
    data_size := 0 }

/-- The full encode pipeline of the claims: synthesize the provisional
header, open the writer on an empty sink (`WavWriter::from_file`), write
every sample, and close (`patch_file`, as `Drop`/`into_inner` do),
returning the sink's final contents. -/
def encode (W : Nat) (fmt : AudioFormat) (channels sample_rate : Nat)
    (xs : List Nat) : Option (List Nat) :=
  (WavWriter.from_file W
      (WavFileDesc.toHeader W fmt channels sample_rate xs.length)
      ⟨[], 0⟩).map
    (fun w => ((WavWriter.write_iter W w xs).patch_file).sink.bytes)

/-- The full decode pipeline: parse the header, dispatch, and run the
typed streaming decoder to exhaustion. -/
def decodeFile (bs : List Nat) :
    Option (WavHeader × SampleFormat × List Nat) :=
  match WavHeader.from_reader bs with
  | .error _ => none
  | .ok (h, rest) =>
    match WavFile.samples h with
    | .ok f => some (h, f, decodeAll f.width rest)
    | _ => none

/-- C9 — `bits_per_sample` binding contract: opening a writer for an
element type of width `W` (`WavWriter::from_file`) panics (the `assert_eq!`,
modelled as `none`; there is no recoverable-error return) exactly when the
header violates `bits_per_sample = 8 * W`, and every successful binding
satisfies that equation. -/
theorem C9_bits_binding_contract (W : Nat) (h : WavHeader) (sink : Sink) :
    (WavWriter.from_file W h sink = none ↔ h.bits_per_sample ≠ 8 * W) ∧
    (∀ w : WavWriter, WavWriter.from_file W h sink = some w →
      w.header.bits_per_sample = 8 * W) := by
  unfold WavWriter.from_file
  by_cases hb : h.bits_per_sample = 8 * W
  · rw [if_pos hb]
    refine ⟨⟨fun hco => (by cases hco), fun hne => absurd hb hne⟩, ?_⟩
    intro w hw
    cases hw
    exact hb
  · rw [if_neg hb]
    exact ⟨⟨fun _ => hb, fun _ => rfl⟩, fun w hw => by cases hw⟩

/-- C2 — Backpatch sizes are wrong for multi-byte elements:
`write_sample` increments `data_size` by 1 per sample (the source's
`self.data_size += 1`), not by the element width, although the field is
documented as a byte count.  After writing `N = 1` sample of width
`W = 2` (one `i16`) and closing, the `u32` at byte offset 4 is `41` and
the one at offset 40 is `1`, where the claim (`N*W + 40`, `N*W`) requires
`42` and `2`. -/
theorem C2_backpatch_code_bug :
    ((WavWriter.from_file 2 (WavFileDesc.toHeader 2 .PCMLinear 1 44100 1)
        ⟨[], 0⟩).map
      (fun w =>
        let w2 := (WavWriter.write_sample 2 w 7).patch_file
        (u32At w2.sink.bytes 4, u32At w2.sink.bytes 40)))
      = some (41, 1) ∧
    (41, 1) ≠ (1 * 2 + 40, 1 * 2) := by
  exact ⟨rfl, by decide⟩

/-- C1 — Encode-then-decode does not round-trip: `WavWriter::from_file`
writes the 40-byte provisional header with no `data_size` placeholder, so
the payload starts at byte offset 40 and the closing backpatch of the
data-size field at offset 40 overwrites the first four payload bytes.
Encoding the `u8` samples `[1,2,3,4,5]` (mono, 44100 Hz) and decoding the
resulting bytes yields the correct channels (1), sample rate (44100) and
`bits_per_sample` (8 = 8×1) with the `u8` variant selected, but the
decoded sequence is `[5]`, not `[1,2,3,4,5]`. -/
theorem C1_roundtrip_code_bug :
    ((encode 1 .PCMLinear 1 44100 [1, 2, 3, 4, 5]).bind decodeFile).map
        (fun p => (p.1.channels, p.1.sample_rate, p.1.bits_per_sample,
          p.2.1, p.2.2))
      = some (1, 44100, 8, .U8, [5]) ∧
    ([5] : List Nat) ≠ [1, 2, 3, 4, 5] := by
  exact ⟨rfl, by decide⟩

/-- A fallible random-access sink for the error-propagation claim: when
`failing` is set, every write and seek reports an I/O error (and performs
nothing), as a broken file handle would. -/
structure FSink where
  sink : Sink
  failing : Bool
deriving DecidableEq, Repr

/-- A fallible write: the returned `Except` is the `io::Result` of the
operation. -/
def FSink.writeBytes (s : FSink) (d : List Nat) : FSink × Except Unit Unit :=
  if s.failing then (s, .error ())
  else ({ s with sink := s.sink.writeBytes d }, .ok ())

/-- A fallible `seek(SeekFrom::Start(p))`. -/
def FSink.seekStart (s : FSink) (p : Nat) : FSink × Except Unit Unit :=
  if s.failing then (s, .error ())
  else ({ s with sink := s.sink.seekStart p }, .ok ())

/-- A fallible `seek(SeekFrom::End(0))`. -/
def FSink.seekEnd (s : FSink) : FSink × Except Unit Unit :=
  if s.failing then (s, .error ())
  else ({ s with sink := s.sink.seekEnd }, .ok ())

/-- `WavHeader::write` against a fallible sink: the eleven sequential
writes chained with `?` (stop at the first error, which the function
returns). -/
def WavHeader.writeTo (h : WavHeader) (s0 : FSink) : FSink × Except Unit Unit :=
  [RIFF, toLEBytes 4 h.file_size, WAVE ++ FMT, toLEBytes 4 16,
   toLEBytes 2 h.audio_format.toCode, toLEBytes 2 h.channels,
   toLEBytes 4 h.sample_rate, toLEBytes 4 h.bytes_per_sec,
   toLEBytes 2 h.bytes_per_block, toLEBytes 2 h.bits_per_sample,
   DATA].foldl
    (fun acc d =>
      match acc with
      | (s, Except.ok _) => s.writeBytes d
      | (s, Except.error e) => (s, Except.error e))
    (s0, .ok ())

/-- `WavWriter` over a fallible sink. -/
structure FWavWriter where
  header : WavHeader
  fsink : FSink
  data_size : Nat
deriving DecidableEq, Repr

/-- `WavWriter::from_file` faithfully embedded over the fallible sink: the
source's `file.header.write(&mut file.data);` DISCARDS the returned
`Result`, so the writer is constructed and returned no matter whether the
header write failed. (`none` is still only the `assert_eq!` panic.) -/
def FWavWriter.from_file (W : Nat) (h : WavHeader) (s : FSink) :
    Option FWavWriter :=
  if h.bits_per_sample = 8 * W then
    let r := h.writeTo s
    some { header := h, fsink := r.1, data_size := 0 }
  else none

/-- `WavWriter::patch_file` faithfully embedded over the fallible sink:
every `seek` and `write_u32` inside has its `Result` discarded in the
source, and the function unconditionally returns `Ok(())`. -/
def FWavWriter.patch_file (w : FWavWriter) : FWavWriter × Except Unit Unit :=
  let s1 := (w.fsink.seekStart 4).1
  let s2 := (s1.writeBytes (toLEBytes 4 ((w.data_size + 40) % 256 ^ 4))).1
  let s3 := (s2.seekStart 40).1
  let s4 := (s3.writeBytes (toLEBytes 4 w.data_size)).1
  let s5 := (s4.seekEnd).1
  ({ w with fsink := s5 }, .ok ())

/-- C6 — Encode-side errors are silently swallowed, contradicting the
claim that every encode error is surfaced: on a sink whose every
write/seek fails, `WavWriter::from_file` still returns a writer (the
provisional-header write did report an error, but the source discards that
`Result`), nothing was written, and `patch_file` — the close/backpatch
step — returns `Ok(())` even though all its seeks and writes failed. -/
theorem C6_swallowed_errors_code_bug :
    (FWavWriter.from_file 2 (WavFileDesc.toHeader 2 .PCMLinear 1 44100 0)
        ⟨⟨[], 0⟩, true⟩).map
      (fun w => (w.fsink.sink.bytes, w.patch_file.2))
      = some ([], .ok ()) ∧
    (WavHeader.writeTo (WavFileDesc.toHeader 2 .PCMLinear 1 44100 0)
        ⟨⟨[], 0⟩, true⟩).2 = .error () := by
  exact ⟨rfl, rfl⟩

end Yawr
